import Mathlib

/-!
Verification development for the `lbranch` utility (src/lbranch/main.py).

The definitions below are a shallow embedding of the Python source:
string scanning is modelled on `List Char` (Python `str` operations
`lower`, `splitlines`, `split`, `in`, `startswith` are reimplemented
character by character for the ASCII inputs the program consumes),
the reflog scan loop of `main` (lines 137-156) becomes a left fold,
and the presenter / selector (lines 158-192) becomes pure functions
from the requested count and the extracted branch list to the lines
printed and the outcome chosen.  Python `int` is modelled as `Int`,
and the negative-slice behaviour of `branches[:k]` is modelled
explicitly in `pyTake`.
-/

/-- ASCII lower-casing of one character, as Python `str.lower` acts on
the ASCII range (reflog text is ASCII). -/
def lowerChar (c : Char) : Char :=
  if 65 ≤ c.toNat ∧ c.toNat ≤ 90 then Char.ofNat (c.toNat + 32) else c

/-- `line.lower()` from main.py line 140, on ASCII text. -/
def lowerString (s : String) : String :=
  String.mk (s.data.map lowerChar)

/-- Boolean list-of-characters test: `pat` starts `s`. -/
def prefB : List Char → List Char → Bool
  | [], _ => true
  | _ :: _, [] => false
  | p :: ps, c :: cs => p == c && prefB ps cs

/-- Boolean substring test on character lists. -/
def containsB (pat : List Char) : List Char → Bool
  | [] => prefB pat []
  | c :: cs => prefB pat (c :: cs) || containsB pat cs

/-- Python `pat in s` substring membership. -/
def strContains (s pat : String) : Bool :=
  containsB pat.data s.data

/-- Split a character list at newline characters (keeps empty pieces). -/
def splitOnNl : List Char → List (List Char)
  | [] => [[]]
  | c :: rest =>
    if c = '\n' then [] :: splitOnNl rest
    else
      match splitOnNl rest with
      | [] => [[c]]
      | p :: ps => (c :: p) :: ps

/-- Python `str.splitlines()` for `\n`-separated text (reflog output):
a trailing newline does not produce a final empty line. -/
def pySplitlines (s : String) : List String :=
  let pieces := splitOnNl s.data
  let pieces := if pieces.getLast? = some [] then pieces.dropLast else pieces
  pieces.map String.mk

/-- Tokenizer for Python `str.split()` (split on whitespace runs,
dropping empty tokens); `tok` accumulates the current token reversed. -/
def wsTokens : List Char → List Char → List (List Char)
  | [], tok => if tok.isEmpty then [] else [tok.reverse]
  | c :: rest, tok =>
    if c.isWhitespace then
      if tok.isEmpty then wsTokens rest [] else tok.reverse :: wsTokens rest []
    else wsTokens rest (c :: tok)

/-- Python `line.split()` from main.py line 142. -/
def pySplit (s : String) : List String :=
  (wsTokens s.data []).map String.mk

/-- `parts.index("from")` followed by `parts[from_index + 1]`
(main.py lines 144-146): the token immediately after the first token
equal to `"from"`; `none` when `"from"` is absent (the `ValueError`
branch, line 155) or is the last token (line 145 guard). -/
def tokenAfterFrom : List String → Option String
  | [] => none
  | t :: rest => if t = "from" then rest.head? else tokenAfterFrom rest

/-- Python `branch.startswith('\x7b')` (main.py line 149). -/
def startsWithBrace (s : String) : Bool :=
  match s.data with
  | [] => false
  | c :: _ => c = '\x7b'

/-- The branch token one reflog line contributes, if any
(main.py lines 140-150): the line must contain the lower-cased marker
`"checkout: moving from"`, the token after `from` is extracted, and
tokens that are empty, equal the current branch, or start with `\x7b`
are discarded. -/
def lineToken (current line : String) : Option String :=
  if strContains (lowerString line) "checkout: moving from" then
    match tokenAfterFrom (pySplit line) with
    | some branch =>
      if branch = "" ∨ branch = current ∨ startsWithBrace branch = true then none
      else some branch
    | none => none
  else none

/-- `if branch not in branches: branches.append(branch)`
(main.py lines 152-154). -/
def insertIfNew (branches : List String) (b : String) : List String :=
  if b ∈ branches then branches else branches ++ [b]

/-- Loop body of the reflog scan (main.py lines 138-156). -/
def processLine (current : String) (branches : List String) (line : String) :
    List String :=
  match lineToken current line with
  | some branch => insertIfNew branches branch
  | none => branches

/-- The extractor: `branches` after the loop over
`reflog_output.splitlines()` (main.py lines 137-156). -/
def extractBranches (current reflog : String) : List String :=
  (pySplitlines reflog).foldl (processLine current) []

/-- The raw sequence of surviving "from" tokens, in scan order and with
duplicates retained (the extractor before its membership test). -/
def fromTokens (current reflog : String) : List String :=
  (pySplitlines reflog).filterMap (lineToken current)

/-- First-occurrence deduplication: keeps each element's first (newest)
position and deletes all its later occurrences. -/
def dedupFirst : List String → List String
  | [] => []
  | b :: rest => b :: (dedupFirst rest).filter (fun x => decide (x ≠ b))

/-- Python list slice `xs[:k]` for an `int` bound `k`: a negative bound
counts from the end, clamped at zero. -/
def pyTake (xs : List String) (k : Int) : List String :=
  if 0 ≤ k then xs.take k.toNat
  else xs.take ((xs.length : Int) + k).toNat

/-- `branches[:min(args.number, total_branches)]`
(main.py lines 164-165). -/
def truncatedBranches (n : Int) (branches : List String) : List String :=
  pyTake branches (min n (branches.length : Int))

/-- The header f-string `"Last ... branches:"` with the requested count
(main.py lines 161 and 168). -/
def headerLine (n : Int) : String :=
  "Last " ++ toString n ++ " branches:"

/-- One displayed entry `"i) branch"` (main.py line 170). -/
def entryLine (i : Nat) (b : String) : String :=
  toString i ++ ") " ++ b

/-- `for i, branch in enumerate(branches, 1): print(...)`
(main.py lines 169-170). -/
def numberFrom (i : Nat) : List String → List String
  | [] => []
  | b :: bs => entryLine i b :: numberFrom (i + 1) bs

/-- The lines printed by the display stage (main.py lines 159-170):
header only when no branches survived, otherwise header followed by
the numbered truncated list. -/
def displayLines (n : Int) (branches : List String) : List String :=
  if branches.length = 0 then [headerLine n]
  else headerLine n :: numberFrom 1 (truncatedBranches n branches)

/-- The selection prompt (main.py line 175), parameterized by
`branch_limit`. -/
def promptLine (limit : Int) : String :=
  "Enter branch number to checkout (1-" ++ toString limit ++ "):"

/-- `re.match(r'^\d+$', branch_num)` (main.py line 178): the input is
non-empty and all decimal digits. -/
def isAllDigits (s : String) : Bool :=
  !s.data.isEmpty && s.data.all Char.isDigit

/-- Python `int(...)` on a decimal digit string. -/
def strToNat (s : String) : Nat :=
  s.data.foldl (fun a c => a * 10 + (c.toNat - 48)) 0

/-- What happens at the interactive prompt: a typed line or a
`KeyboardInterrupt`. -/
inductive UserInput
  | interrupt
  | line (s : String)

/-- Outcome of the select-mode block (main.py lines 173-192):
cancellation, the invalid-selection error, or a checkout attempt of a
chosen branch. -/
inductive SelectOutcome
  | cancelled
  | invalidSelection (s : String)
  | checkoutAttempt (b : String)
  deriving DecidableEq

/-- The select-mode control flow (main.py lines 173-192): an interrupt
is caught and cancels; otherwise the input is validated by the digit
regex and the `[1, branch_limit]` range test and the branch at the
1-based position is checked out. -/
def selectMode (shown : List String) (limit : Int) : UserInput → SelectOutcome
  | UserInput.interrupt => SelectOutcome.cancelled
  | UserInput.line s =>
    if isAllDigits s = false ∨ (strToNat s : Int) < 1 ∨ (strToNat s : Int) > limit then
      SelectOutcome.invalidSelection s
    else
      SelectOutcome.checkoutAttempt (shown.getD (strToNat s - 1) "")

/-- Message printed when the repository has no commits
(main.py line 125). -/
def noCommitsMessage : String :=
  "No branch history found - repository has no commits yet"

/-- The exact argument of `print` in the `KeyboardInterrupt` handler
(main.py line 191). -/
def cancelPrintArg : String :=
  "\nOperation cancelled."

/-- Exit code of a successful listing run (implicit `return` of `main`,
process exits 0). -/
def successExitCode : Nat := 0

/-- Exit code used by `print_error` (main.py line 59). -/
def errorExitCode : Nat := 1

/-- `sys.exit(0)` on the no-commits path (main.py line 126). -/
def noCommitsExitCode : Nat := 0

/-- `sys.exit(0)` when zero branches survive filtering
(main.py line 162). -/
def emptyHistoryExitCode : Nat := 0

/-- `sys.exit(1)` in the `KeyboardInterrupt` handler
(main.py line 192). -/
def interruptExitCode : Nat := 1

/-- Reflog text produced (newest first) by: initial commit on `main`,
then `checkout -b` plus one commit for each of `dev`, `b1`, back to
`dev`, `b2`, back to `b1`, `b3`, back to `dev`, `b4`. -/
def scenarioReflog : String :=
  "90aab4f HEAD@\x7b0\x7d: commit: commit on b4\n" ++
  "81fe2c3 HEAD@\x7b1\x7d: checkout: moving from dev to b4\n" ++
  "7c41d20 HEAD@\x7b2\x7d: checkout: moving from b3 to dev\n" ++
  "6d930aa HEAD@\x7b3\x7d: commit: commit on b3\n" ++
  "5e11b02 HEAD@\x7b4\x7d: checkout: moving from b1 to b3\n" ++
  "4f5ac81 HEAD@\x7b5\x7d: checkout: moving from b2 to b1\n" ++
  "3a90210 HEAD@\x7b6\x7d: commit: commit on b2\n" ++
  "2be4411 HEAD@\x7b7\x7d: checkout: moving from dev to b2\n" ++
  "1c7f9d5 HEAD@\x7b8\x7d: checkout: moving from b1 to dev\n" ++
  "0d81e33 HEAD@\x7b9\x7d: commit: commit on b1\n" ++
  "effac01 HEAD@\x7b10\x7d: checkout: moving from dev to b1\n" ++
  "dd12034 HEAD@\x7b11\x7d: commit: commit on dev\n" ++
  "cc03175 HEAD@\x7b12\x7d: checkout: moving from main to dev\n" ++
  "bb94216 HEAD@\x7b13\x7d: commit (initial): initial"

theorem insertIfNew_of_mem {acc : List String} {b : String} (h : b ∈ acc) :
    insertIfNew acc b = acc := by
  simp [insertIfNew, h]

theorem insertIfNew_of_not_mem {acc : List String} {b : String} (h : b ∉ acc) :
    insertIfNew acc b = acc ++ [b] := by
  simp [insertIfNew, h]

theorem foldl_processLine (c : String) (lines : List String) :
    ∀ acc, lines.foldl (processLine c) acc
      = (lines.filterMap (lineToken c)).foldl insertIfNew acc := by
  induction lines with
  | nil => intro acc; rfl
  | cons l ls ih =>
    intro acc
    rw [List.foldl_cons, List.filterMap_cons]
    cases h : lineToken c l with
    | none => simp only [processLine, h]; exact ih acc
    | some b => simp only [processLine, h]; rw [List.foldl_cons]; exact ih _

theorem foldl_insertIfNew (ts : List String) :
    ∀ acc, ts.foldl insertIfNew acc
      = acc ++ (dedupFirst ts).filter (fun x => decide (x ∉ acc)) := by
  induction ts with
  | nil => intro acc; simp [dedupFirst]
  | cons t ts ih =>
    intro acc
    rw [List.foldl_cons]
    by_cases ht : t ∈ acc
    · rw [insertIfNew_of_mem ht, ih]
      have hd : decide (t ∉ acc) = false := by simpa using ht
      rw [dedupFirst, List.filter_cons, hd]
      simp only [Bool.false_eq_true, if_false]
      rw [List.filter_filter]
      congr 1
      apply List.filter_congr
      intro x _
      by_cases hxa : x ∈ acc
      · simp [hxa]
      · have hxt : x ≠ t := fun he => hxa (he ▸ ht)
        simp [hxa, hxt]
    · rw [insertIfNew_of_not_mem ht, ih]
      have hd : decide (t ∉ acc) = true := by simpa using ht
      rw [dedupFirst, List.filter_cons, hd]
      simp only [if_true]
      rw [List.filter_filter, List.append_assoc, List.singleton_append]
      congr 2
      apply List.filter_congr
      intro x _
      by_cases hxa : x ∈ acc <;> by_cases hxt : x = t <;>
        simp [hxa, hxt, List.mem_append]

theorem extractBranches_eq_dedup (c r : String) :
    extractBranches c r = dedupFirst (fromTokens c r) := by
  rw [extractBranches, fromTokens, foldl_processLine, foldl_insertIfNew,
    List.nil_append]
  exact List.filter_eq_self.mpr (fun a _ => by simp)

theorem mem_dedupFirst (a : String) (ts : List String) :
    a ∈ dedupFirst ts ↔ a ∈ ts := by
  induction ts with
  | nil => simp [dedupFirst]
  | cons t ts ih =>
    rw [dedupFirst]
    simp only [List.mem_cons, List.mem_filter, ih, decide_eq_true_eq]
    constructor
    · rintro (rfl | ⟨h, _⟩)
      · exact Or.inl rfl
      · exact Or.inr h
    · rintro (rfl | h)
      · exact Or.inl rfl
      · by_cases hat : a = t
        · exact Or.inl hat
        · exact Or.inr ⟨h, hat⟩

theorem nodup_dedupFirst (ts : List String) : (dedupFirst ts).Nodup := by
  induction ts with
  | nil => simp [dedupFirst]
  | cons t ts ih =>
    rw [dedupFirst, List.nodup_cons]
    refine ⟨?_, ih.filter _⟩
    intro hmem
    rcases List.mem_filter.mp hmem with ⟨_, hne⟩
    simp at hne

theorem lineToken_some {c l b : String} (h : lineToken c l = some b) :
    b ≠ "" ∧ b ≠ c ∧ startsWithBrace b = false := by
  unfold lineToken at h
  split at h
  · split at h
    · split at h
      · exact absurd h (by simp)
      · next hcond =>
          injection h with hb
          subst hb
          push_neg at hcond
          exact ⟨hcond.1, hcond.2.1, by simpa using hcond.2.2⟩
    · exact absurd h (by simp)
  · exact absurd h (by simp)

/-- C2: for every reflog text and current branch, the extracted
BranchHistory is exactly the first-occurrence deduplication of the
scan's surviving "from" tokens — each branch keeps the position of its
first (newest) occurrence and later occurrences never reorder or
re-insert it — the result has no duplicates, and every branch mentioned
as a surviving "from" token has exactly one entry. -/
theorem extract_dedup_first_occurrence (c r : String) :
    extractBranches c r = dedupFirst (fromTokens c r)
      ∧ (extractBranches c r).Nodup
      ∧ ∀ b ∈ fromTokens c r, (extractBranches c r).count b = 1 := by
  refine ⟨extractBranches_eq_dedup c r, ?_, ?_⟩
  · rw [extractBranches_eq_dedup]
    exact nodup_dedupFirst _
  · intro b hb
    rw [extractBranches_eq_dedup]
    exact List.count_eq_one_of_mem (nodup_dedupFirst _)
      ((mem_dedupFirst b _).mpr hb)

theorem extract_dedup_first_occurrence_witness :
    (extractBranches "z"
      ("x1 HEAD: checkout: moving from a to b\nx2 HEAD: checkout: moving from a to c")).count
        "a" = 1 :=
  (extract_dedup_first_occurrence "z"
    ("x1 HEAD: checkout: moving from a to b\nx2 HEAD: checkout: moving from a to c")).2.2
    "a" (by decide)

/-- C3: for every reflog text and current branch, the extracted
BranchHistory never contains the current branch and never contains a
token beginning with a brace (detached marker). -/
theorem extract_excludes_current_and_detached (current reflog : String) :
    current ∉ extractBranches current reflog
      ∧ ∀ b ∈ extractBranches current reflog, startsWithBrace b = false := by
  have key : ∀ b ∈ extractBranches current reflog,
      b ≠ current ∧ startsWithBrace b = false := by
    intro b hb
    rw [extractBranches_eq_dedup] at hb
    have hbm : b ∈ fromTokens current reflog := (mem_dedupFirst b _).mp hb
    rcases List.mem_filterMap.mp hbm with ⟨l, _, hl⟩
    exact ⟨(lineToken_some hl).2.1, (lineToken_some hl).2.2⟩
  exact ⟨fun h => (key current h).1 rfl, fun b hb => (key b hb).2⟩

/-- C1: for the reflog produced by the checkout sequence main→dev,
dev→b1, b1→dev, dev→b2, b2→b1, b1→b3, b3→dev, dev→b4 (newest first,
current branch b4), the extractor yields [dev, b3, b1, b2, main] in
exactly that order, and truncation to the requested count 5 keeps it
unchanged. -/
theorem extract_scenario_eq :
    extractBranches "b4" scenarioReflog = ["dev", "b3", "b1", "b2", "main"]
      ∧ truncatedBranches 5 (extractBranches "b4" scenarioReflog)
          = ["dev", "b3", "b1", "b2", "main"] := by
  refine ⟨by decide, by decide⟩

/-- C4: for every requested count n (at least the specified minimum 1)
and every extracted BranchHistory, the number of displayed entries is
min(n, length), the displayed entries are an initial segment of the
BranchHistory in unchanged order, and the display is the header
followed by those entries with 1-based ordinals. -/
theorem displayed_truncation_min (n : Int) (ex : List String) (h : 1 ≤ n) :
    ((truncatedBranches n ex).length : Int) = min n (ex.length : Int)
      ∧ (∃ rest, truncatedBranches n ex ++ rest = ex)
      ∧ displayLines n ex = headerLine n :: numberFrom 1 (truncatedBranches n ex) := by
  have h0 : 0 ≤ min n (ex.length : Int) :=
    le_min (by omega) (Int.natCast_nonneg _)
  refine ⟨?_, ?_, ?_⟩
  · rw [truncatedBranches, pyTake, if_pos h0, List.length_take]
    omega
  · rw [truncatedBranches, pyTake, if_pos h0]
    exact ⟨ex.drop (min n (ex.length : Int)).toNat, List.take_append_drop _ _⟩
  · by_cases hlen : ex.length = 0
    · have hx : ex = [] := List.length_eq_zero.mp hlen
      subst hx
      simp [displayLines, truncatedBranches, pyTake, numberFrom]
    · simp [displayLines, hlen]

theorem displayed_truncation_min_witness :
    (1 : Int) ≤ 2
      ∧ (((truncatedBranches 2 ["a", "b", "c"]).length : Int)
            = min 2 ((["a", "b", "c"] : List String).length : Int)
        ∧ (∃ rest, truncatedBranches 2 ["a", "b", "c"] ++ rest = ["a", "b", "c"])
        ∧ displayLines 2 ["a", "b", "c"]
            = headerLine 2 :: numberFrom 1 (truncatedBranches 2 ["a", "b", "c"])) :=
  ⟨by decide, displayed_truncation_min 2 ["a", "b", "c"] (by decide)⟩

/-- C5: for every requested count n the first printed line is
`Last <n> branches:` with the requested count, even when fewer entries
are displayed; when zero branches survive filtering the output is the
header line alone and the process exit code is the success code. -/
theorem header_shows_requested_count (n : Int) (ex : List String) :
    (displayLines n ex).head? = some (headerLine n)
      ∧ headerLine n = "Last " ++ toString n ++ " branches:"
      ∧ displayLines n [] = [headerLine n]
      ∧ emptyHistoryExitCode = successExitCode := by
  refine ⟨?_, rfl, ?_, rfl⟩
  · rw [displayLines]
    split <;> rfl
  · simp [displayLines]

/-- C6 (code bug): the no-commits path prints the documented message
but exits with code 0, identical to the general-success exit code, so
the two outcomes are not distinguishable — the repository's test suite
requires the sysexits EX_NOINPUT code (66) there. -/
theorem no_commits_exit_matches_success :
    noCommitsMessage = "No branch history found - repository has no commits yet"
      ∧ noCommitsExitCode = successExitCode ∧ successExitCode = 0 :=
  ⟨rfl, rfl, rfl⟩

/-- C7 (code bug): an interrupt at the prompt is caught, cancels
without any checkout attempt, and prints `Operation cancelled.`, but
the process exits with code 1 — equal to the generic error exit code,
not the SIGINT convention 130 that the repository's test suite
requires. -/
theorem interrupt_cancelled_exit_code :
    (∀ (shown : List String) (limit : Int),
        selectMode shown limit UserInput.interrupt = SelectOutcome.cancelled)
      ∧ (∀ (shown : List String) (limit : Int) (b : String),
          selectMode shown limit UserInput.interrupt ≠ SelectOutcome.checkoutAttempt b)
      ∧ pySplitlines cancelPrintArg = ["", "Operation cancelled."]
      ∧ interruptExitCode = errorExitCode := by
  refine ⟨fun _ _ => rfl, fun _ _ b h => SelectOutcome.noConfusion h, by decide, rfl⟩

/-- C8: at the selection prompt, any input that is not entirely decimal
digits or whose value lies outside [1, branch_limit] produces the
invalid-selection outcome and no checkout attempt, while any all-digit
input whose value lies in [1, branch_limit] produces a checkout attempt
of the branch at that 1-based position of the displayed list. -/
theorem selection_validation (shown : List String) (limit : Int) (s : String) :
    ((isAllDigits s = false ∨ (strToNat s : Int) < 1 ∨ (strToNat s : Int) > limit) →
        selectMode shown limit (UserInput.line s) = SelectOutcome.invalidSelection s
          ∧ ∀ b, selectMode shown limit (UserInput.line s) ≠ SelectOutcome.checkoutAttempt b)
      ∧ (isAllDigits s = true → 1 ≤ (strToNat s : Int) → (strToNat s : Int) ≤ limit →
          selectMode shown limit (UserInput.line s)
            = SelectOutcome.checkoutAttempt (shown.getD (strToNat s - 1) "")) := by
  constructor
  · intro hbad
    have hval : selectMode shown limit (UserInput.line s)
        = SelectOutcome.invalidSelection s := by
      show (if isAllDigits s = false ∨ (strToNat s : Int) < 1 ∨ (strToNat s : Int) > limit
        then SelectOutcome.invalidSelection s
        else SelectOutcome.checkoutAttempt (shown.getD (strToNat s - 1) "")) = _
      rw [if_pos hbad]
    exact ⟨hval, fun b h => by rw [hval] at h; exact SelectOutcome.noConfusion h⟩
  · intro h1 h2 h3
    show (if isAllDigits s = false ∨ (strToNat s : Int) < 1 ∨ (strToNat s : Int) > limit
      then SelectOutcome.invalidSelection s
      else SelectOutcome.checkoutAttempt (shown.getD (strToNat s - 1) "")) = _
    rw [if_neg]
    push_neg
    exact ⟨by simp [h1], by omega, by omega⟩

theorem selection_validation_witness :
    selectMode ["main"] 1 (UserInput.line "abc") = SelectOutcome.invalidSelection "abc"
      ∧ selectMode ["main"] 1 (UserInput.line "1")
          = SelectOutcome.checkoutAttempt ((["main"] : List String).getD (strToNat "1" - 1) "") :=
  ⟨((selection_validation ["main"] 1 "abc").1 (Or.inl (by decide))).1,
   (selection_validation ["main"] 1 "1").2 (by decide) (by decide) (by decide)⟩

/-- C9 (code bug): a non-positive requested count is not rejected as a
usage error; the program proceeds and prints the listing header with
the non-positive count (here evaluated at counts 0 and -1 with a
non-empty extracted history). -/
theorem nonpositive_count_not_rejected :
    displayLines 0 ["feature"] = ["Last 0 branches:"]
      ∧ displayLines (-1) ["feature", "main"] = ["Last -1 branches:", "1) feature"] := by
  refine ⟨by decide, by decide⟩

/-- C10 counterexample: with requested count 0 and five extracted
branches, the code displays zero entries, not the
max(length + n, 0) = 5 entries the claim's formula gives. -/
theorem slice_formula_cex :
    truncatedBranches 0 ["a", "b", "c", "d", "e"] = []
      ∧ (max ((5 : Int) + 0) 0).toNat = 5
      ∧ truncatedBranches 0 ["a", "b", "c", "d", "e"]
          ≠ (["a", "b", "c", "d", "e"] : List String).take (max ((5 : Int) + 0) 0).toNat := by
  refine ⟨by decide, by decide, by decide⟩

/-- C10 (amended): for every non-positive requested count n and
non-empty extracted BranchHistory the program still prints the header
with n followed by the numbered truncated entries; with n = 0 it
displays no entries, with n < 0 it displays the first
max(length + n, 0) entries (the Python negative-slice bound), and the
selection prompt announces the range (1-<n>) with that non-positive n. -/
theorem nonpositive_count_display (n : Int) (hn : n ≤ 0) (ex : List String)
    (hne : ex ≠ []) :
    displayLines n ex = headerLine n :: numberFrom 1 (truncatedBranches n ex)
      ∧ (n = 0 → truncatedBranches n ex = [])
      ∧ (n < 0 → truncatedBranches n ex = ex.take (((ex.length : Int) + n).toNat)
          ∧ ((truncatedBranches n ex).length : Int) = max ((ex.length : Int) + n) 0)
      ∧ promptLine (min n (ex.length : Int))
          = "Enter branch number to checkout (1-" ++ toString n ++ "):" := by
  have hlen : ex.length ≠ 0 := fun h => hne (List.length_eq_zero.mp h)
  have hmin : min n (ex.length : Int) = n :=
    min_eq_left (le_trans hn (Int.natCast_nonneg _))
  refine ⟨?_, ?_, ?_, ?_⟩
  · simp [displayLines, hlen]
  · intro h0
    subst h0
    simp [truncatedBranches, hmin, pyTake]
  · intro hneg
    rw [truncatedBranches, hmin, pyTake, if_neg (by omega)]
    refine ⟨rfl, ?_⟩
    rw [List.length_take]
    omega
  · rw [hmin]
    rfl

theorem nonpositive_count_display_witness :
    ((-1 : Int) ≤ 0) ∧ ((["a", "b", "c", "d", "e"] : List String) ≠ [])
      ∧ (displayLines (-1) ["a", "b", "c", "d", "e"]
            = headerLine (-1) :: numberFrom 1 (truncatedBranches (-1) ["a", "b", "c", "d", "e"])
        ∧ ((-1 : Int) = 0 → truncatedBranches (-1) ["a", "b", "c", "d", "e"] = [])
        ∧ ((-1 : Int) < 0 → truncatedBranches (-1) ["a", "b", "c", "d", "e"]
              = (["a", "b", "c", "d", "e"] : List String).take
                  ((((["a", "b", "c", "d", "e"] : List String).length : Int) + (-1)).toNat)
            ∧ ((truncatedBranches (-1) ["a", "b", "c", "d", "e"]).length : Int)
                = max (((["a", "b", "c", "d", "e"] : List String).length : Int) + (-1)) 0)
        ∧ promptLine (min (-1) ((["a", "b", "c", "d", "e"] : List String).length : Int))
            = "Enter branch number to checkout (1-" ++ toString (-1 : Int) ++ "):") :=
  ⟨by decide, by decide,
    nonpositive_count_display (-1) (by decide) ["a", "b", "c", "d", "e"] (by decide)⟩
